import Mathlib

/-!
Shallow embedding of the swagger-proxy package (files `writer.go` and the
proxy dispatch file): a contract-enforcing reverse proxy that forwards
traffic unchanged and validates each buffered backend response against the
declared swagger operation.

External collaborators (the go-openapi schema validator, the swag int32
parser, the strfmt date-time parser) are passed as function parameters, as
the code treats them as callable capabilities.  The JSON decoder
(`encoding/json.Unmarshal` into a generic value) is embedded concretely
below, sufficient for the behaviours the dispatch layer depends on: empty
input is a decode error, and well-formed documents decode to a generic value.
-/

namespace SwaggerProxy

/-- Generic decoded JSON value, the shape `json.Unmarshal` produces for an
`interface\x7b\x7d` target (numbers kept as their source token). -/
inductive JsonVal where
  | null
  | bool (b : Bool)
  | num (s : String)
  | str (s : String)
  | arr (xs : List JsonVal)
  | obj (kvs : List (String × JsonVal))

def isWS (c : Char) : Bool := c = ' ' || c = '\t' || c = '\n' || c = '\r'

def skipWS : List Char → List Char
  | [] => []
  | c :: rest => if isWS c then skipWS rest else c :: rest

def isDigitCh (c : Char) : Bool := '0' ≤ c && c ≤ '9'

def isNumChar (c : Char) : Bool :=
  isDigitCh c || c = '-' || c = '+' || c = '.' || c = 'e' || c = 'E'

def escChar (c : Char) : Char :=
  match c with
  | 'n' => '\n'
  | 't' => '\t'
  | 'r' => '\r'
  | c => c

/-- Decode the remainder of a JSON string literal (opening quote already
consumed); fuel-driven so that concrete runs reduce definitionally. -/
def parseStringChars : Nat → List Char → List Char → Except String (String × List Char)
  | 0, _, _ => Except.error "depth limit"
  | _ + 1, _, [] => Except.error "unexpected end of JSON input"
  | fuel + 1, acc, '\\' :: rest =>
    match rest with
    | [] => Except.error "unexpected end of JSON input"
    | e :: rest2 => parseStringChars fuel (escChar e :: acc) rest2
  | fuel + 1, acc, c :: rest =>
    if c = '\"' then Except.ok (String.mk acc.reverse, rest)
    else parseStringChars fuel (c :: acc) rest

def spanNum : List Char → List Char × List Char
  | [] => ([], [])
  | c :: rest =>
    if isNumChar c then
      let p := spanNum rest
      (c :: p.1, p.2)
    else ([], c :: rest)

mutual

def parseValue : Nat → List Char → Except String (JsonVal × List Char)
  | 0, _ => Except.error "depth limit"
  | fuel + 1, input =>
    match skipWS input with
    | [] => Except.error "unexpected end of JSON input"
    | 'n' :: 'u' :: 'l' :: 'l' :: rest => Except.ok (JsonVal.null, rest)
    | 't' :: 'r' :: 'u' :: 'e' :: rest => Except.ok (JsonVal.bool true, rest)
    | 'f' :: 'a' :: 'l' :: 's' :: 'e' :: rest => Except.ok (JsonVal.bool false, rest)
    | '\"' :: rest =>
      match parseStringChars (fuel + 1) [] rest with
      | Except.error e => Except.error e
      | Except.ok (s, rest2) => Except.ok (JsonVal.str s, rest2)
    | '[' :: rest =>
      match skipWS rest with
      | ']' :: rest2 => Except.ok (JsonVal.arr [], rest2)
      | rest2 => parseElems fuel [] rest2
    | '\x7b' :: rest =>
      match skipWS rest with
      | '\x7d' :: rest2 => Except.ok (JsonVal.obj [], rest2)
      | rest2 => parseMembers fuel [] rest2
    | c :: rest =>
      if isDigitCh c || c = '-' then
        let p := spanNum (c :: rest)
        if p.1.any isDigitCh then Except.ok (JsonVal.num (String.mk p.1), p.2)
        else Except.error "invalid number literal"
      else Except.error "invalid character looking for beginning of value"

def parseElems : Nat → List JsonVal → List Char → Except String (JsonVal × List Char)
  | 0, _, _ => Except.error "depth limit"
  | fuel + 1, acc, input =>
    match parseValue fuel input with
    | Except.error e => Except.error e
    | Except.ok (v, rest) =>
      match skipWS rest with
      | ',' :: rest2 => parseElems fuel (v :: acc) rest2
      | ']' :: rest2 => Except.ok (JsonVal.arr (v :: acc).reverse, rest2)
      | _ => Except.error "invalid character in array"

def parseMembers : Nat → List (String × JsonVal) → List Char → Except String (JsonVal × List Char)
  | 0, _, _ => Except.error "depth limit"
  | fuel + 1, acc, input =>
    match skipWS input with
    | '\"' :: rest =>
      match parseStringChars (fuel + 1) [] rest with
      | Except.error e => Except.error e
      | Except.ok (k, rest2) =>
        match skipWS rest2 with
        | ':' :: rest3 =>
          match parseValue fuel rest3 with
          | Except.error e => Except.error e
          | Except.ok (v, rest4) =>
            match skipWS rest4 with
            | ',' :: rest5 => parseMembers fuel ((k, v) :: acc) rest5
            | '\x7d' :: rest5 => Except.ok (JsonVal.obj ((k, v) :: acc).reverse, rest5)
            | _ => Except.error "invalid character in object"
        | _ => Except.error "invalid character in object"
    | _ => Except.error "invalid character in object"

end

/-- `json.Unmarshal(body, &data)` for a generic target: decode one value,
then require only whitespace to follow.  Zero bytes of input fail with
the decoder's unexpected-end error, as in Go. -/
def jsonUnmarshal (body : List Char) : Except String JsonVal :=
  match parseValue (body.length + 1) body with
  | Except.error e => Except.error e
  | Except.ok (v, rest) =>
    match skipWS rest with
    | [] => Except.ok v
    | _ => Except.error "invalid character after top-level value"

/-! ## Response recorder (`writer.go`) -/

/-- One call that reaches the real `http.ResponseWriter` underneath the
recorder: either a forwarded `WriteHeader` or a forwarded body `Write`. -/
inductive SinkEvent where
  | writeHeader (status : Nat)
  | write (bs : List Char)

/-- `WriterRecorder`: wraps the caller-facing response writer.  `sinkEvents`
is the trace of calls forwarded to the wrapped `http.ResponseWriter`;
`headers` models the shared `Header()` map; `status` and `body` are the
recorded copies (`status` has Go zero value 0 before any `WriteHeader`). -/
structure WriterRecorder where
  sinkEvents : List SinkEvent
  headers : List (String × String)
  status : Nat
  body : List Char

/-- A `WriterRecorder` fresh out of `&WriterRecorder\x7bResponseWriter: w\x7d`. -/
def initialRecorder : WriterRecorder :=
  { sinkEvents := [], headers := [], status := 0, body := [] }

/-- `WriterRecorder.WriteHeader`: forwards the status to the wrapped writer,
then records it. -/
def WriterRecorder.WriteHeader (w : WriterRecorder) (status : Nat) : WriterRecorder :=
  { w with sinkEvents := w.sinkEvents ++ [SinkEvent.writeHeader status], status := status }

/-- `WriterRecorder.Write`, parameterised by the buffer append operation
`bufWrite old new = (resulting buffer, reported count, error?)` so that the
buffer-failure branch of the source is representable (`bytes.Buffer.Write`
itself never fails).  On buffer error the wrapped writer is not invoked and
the buffer's count and error are returned; on success the bytes are
forwarded and the sink's result (full count, no error) is returned. -/
def WriterRecorder.Write
    (bufWrite : List Char → List Char → List Char × Nat × Option String)
    (w : WriterRecorder) (bs : List Char) : WriterRecorder × Nat × Option String :=
  match bufWrite w.body bs with
  | (newBuf, n, some e) => ({ w with body := newBuf }, n, some e)
  | (newBuf, _, none) =>
    ({ w with body := newBuf, sinkEvents := w.sinkEvents ++ [SinkEvent.write bs] },
     bs.length, none)

/-- `bytes.Buffer.Write`: appends and reports `(len(p), nil)`. -/
def bytesBufferWrite (buf bs : List Char) : List Char × Nat × Option String :=
  (buf ++ bs, bs.length, none)

/-- `Header().Get`: first value for the key, `""` when absent. -/
def headerGet : List (String × String) → String → String
  | [], _ => ""
  | (k, v) :: rest, key => if k = key then v else headerGet rest key

/-- `Header().Set`: replace any existing value for the key. -/
def headerSet : List (String × String) → String → String → List (String × String)
  | [], key, val => [(key, val)]
  | (k, v) :: rest, key, val =>
    if k = key then (key, val) :: rest else (k, v) :: headerSet rest key val

/-! ## Backend responses as action traces

A backend handler (`next.ServeHTTP`) interacts with the response writer it
is handed through `Header().Set`, `WriteHeader` and `Write`; a run of the
handler is the trace of those calls. -/

inductive RespAction where
  | setHeader (k v : String)
  | writeHeader (status : Nat)
  | write (bs : List Char)

def runAction (w : WriterRecorder) : RespAction → WriterRecorder
  | RespAction.setHeader k v => { w with headers := headerSet w.headers k v }
  | RespAction.writeHeader s => w.WriteHeader s
  | RespAction.write bs => (WriterRecorder.Write bytesBufferWrite w bs).1

/-- Run a backend handler (its action trace) against a recorder. -/
def runActions : List RespAction → WriterRecorder → WriterRecorder
  | [], w => w
  | a :: rest, w => runActions rest (runAction w a)

/-- What the same backend trace delivers to a bare, unwrapped response
writer: every `WriteHeader` and `Write`, in order. -/
def rawSink : List RespAction → List SinkEvent
  | [] => []
  | RespAction.setHeader _ _ :: rest => rawSink rest
  | RespAction.writeHeader s :: rest => SinkEvent.writeHeader s :: rawSink rest
  | RespAction.write bs :: rest => SinkEvent.write bs :: rawSink rest

def applyHeaderActs : List RespAction → List (String × String) → List (String × String)
  | [], hs => hs
  | RespAction.setHeader k v :: rest, hs => applyHeaderActs rest (headerSet hs k v)
  | RespAction.writeHeader _ :: rest, hs => applyHeaderActs rest hs
  | RespAction.write _ :: rest, hs => applyHeaderActs rest hs

/-- Headers a bare response writer ends up with under the trace. -/
def rawHeaders (acts : List RespAction) : List (String × String) :=
  applyHeaderActs acts []

/-- Argument of the last `WriteHeader` in the trace, if any. -/
def lastStatus : List RespAction → Option Nat
  | [] => none
  | RespAction.writeHeader s :: rest => some ((lastStatus rest).getD s)
  | RespAction.setHeader _ _ :: rest => lastStatus rest
  | RespAction.write _ :: rest => lastStatus rest

/-- Body bytes the trace writes, concatenated. -/
def writtenBytes : List RespAction → List Char
  | [] => []
  | RespAction.write bs :: rest => bs ++ writtenBytes rest
  | RespAction.setHeader _ _ :: rest => writtenBytes rest
  | RespAction.writeHeader _ :: rest => writtenBytes rest

/-! ## Swagger model (the slice the dispatch layer reads) -/

/-- `spec.Header`: only its `Format` field is consulted. -/
structure HeaderSpec where
  format : String

/-- `spec.Response`: declared header contracts and optional body schema.
The schema type `σ` is abstract; the go-openapi validator consuming it is a
parameter below. -/
structure SpecResponse (σ : Type) where
  headers : List (String × HeaderSpec)
  schema : Option σ

/-- `spec.Operation`: response contract per declared status code
(`Responses.StatusCodeResponses`). -/
structure Operation (σ : Type) where
  responses : List (Nat × SpecResponse σ)

def lookupStatus {σ : Type} (rs : List (Nat × SpecResponse σ)) (st : Nat) :
    Option (SpecResponse σ) :=
  (rs.find? (fun p => p.1 == st)).map Prod.snd

/-! ## Validation adapter -/

/-- `validateHeaderValue`, parameterised by the two external format parsers
(`swag.ConvertInt32`, `strfmt.ParseDateTime`), each returning `none` on
success and `some message` on rejection, exactly the `error` result shape of
the source. -/
def validateHeaderValue (int32parse dtparse : String → Option String)
    (key value : String) (hs : HeaderSpec) : Option String :=
  if value = "" then some (key ++ " in headers is missing")
  else if hs.format = "int32" then int32parse value
  else if hs.format = "date-time" then dtparse value
  else none

/-- The violations the header loop of `Validate` collects. -/
def headerErrs (int32parse dtparse : String → Option String)
    (hdr : List (String × String)) (specHeaders : List (String × HeaderSpec)) :
    List String :=
  specHeaders.filterMap
    (fun kv => validateHeaderValue int32parse dtparse kv.1 (headerGet hdr kv.1) kv.2)

/-- The violations the schema step of `Validate` appends: none when the
contract declares no schema, otherwise whatever the external validator
reports. -/
def schemaErrs {σ : Type} (schemaValidate : σ → JsonVal → List String)
    (schema : Option σ) (data : JsonVal) : List String :=
  match schema with
  | none => []
  | some sch => schemaValidate sch data

/-- Result of `Proxy.Validate`: `nil`, the bare JSON decode error, or
`errors.CompositeValidationError` over the collected violations. -/
inductive ValidateErr where
  | parseFailure (msg : String)
  | composite (errs : List String)

/-- `Proxy.Validate`, parameterised by the external schema validator (which
closes over `proxy.doc`) and the two header format parsers.  Decode the
body; on failure return that error alone.  Otherwise collect header
violations, append schema violations, and return `nil` exactly when nothing
was collected, else one composite error over all of them. -/
def Validate {σ : Type} (schemaValidate : σ → JsonVal → List String)
    (int32parse dtparse : String → Option String)
    (status : Nat) (hdr : List (String × String)) (body : List Char)
    (resp : SpecResponse σ) : Option ValidateErr :=
  match jsonUnmarshal body with
  | Except.error e => some (ValidateErr.parseFailure e)
  | Except.ok data =>
    let errs := headerErrs int32parse dtparse hdr resp.headers ++
      schemaErrs schemaValidate resp.schema data
    if errs = [] then none else some (ValidateErr.composite errs)

/-! ## Dispatch core -/

/-- The single notification `Proxy.Handler` raises per request. -/
inductive ReportedErr where
  | plain (msg : String)
  | validation (e : ValidateErr)

inductive Report where
  | warning (msg : String)
  | reportError (e : ReportedErr)
  | success

/-- `Proxy.Handler`: `route` is the outcome of the in-handler
`router.Match` plus `proxy.routes` lookup (`none` when `match.Handler` or
the operation is nil).  On a miss: warn and return, writing nothing.
Otherwise run the backend against a fresh recorder, look up the contract
for the recorded status, and validate the buffered copy.  Returns what was
delivered to the caller (forwarded sink events and the shared header map)
together with the report. -/
def Handler {σ : Type} (schemaValidate : σ → JsonVal → List String)
    (int32parse dtparse : String → Option String)
    (route : Option (Operation σ)) (backend : List RespAction) :
    (List SinkEvent × List (String × String)) × Report :=
  match route with
  | none => (([], []), Report.warning "Route not defined on the Spec")
  | some op =>
    let wr := runActions backend initialRecorder
    match lookupStatus op.responses wr.status with
    | none =>
      ((wr.sinkEvents, wr.headers),
       Report.reportError (ReportedErr.plain
         ("Server Status " ++ toString wr.status ++ " not defined by the spec")))
    | some specResp =>
      match Validate schemaValidate int32parse dtparse wr.status wr.headers wr.body specResp with
      | some e => ((wr.sinkEvents, wr.headers), Report.reportError (ReportedErr.validation e))
      | none => ((wr.sinkEvents, wr.headers), Report.success)

/-- `Proxy.notFound` (the muxer's NotFoundHandler): warn, then let the
reverse proxy serve the request directly on the caller's writer — the
caller receives exactly the raw backend response. -/
def notFound (backend : List RespAction) :
    (List SinkEvent × List (String × String)) × Report :=
  ((rawSink backend, rawHeaders backend), Report.warning "Route not defined on the Spec")

/-! ## Route registration -/

/-- `spec.PathItem`: one optional operation per HTTP method. -/
structure PathItem (Op : Type) where
  delete : Option Op
  get : Option Op
  head : Option Op
  options : Option Op
  patch : Option Op
  post : Option Op
  put : Option Op

/-- `getOperations`: the if/else-if chain over the path item's method
fields — the map it builds holds at most the first present method. -/
def getOperations {Op : Type} (props : PathItem Op) : List (String × Op) :=
  match props.delete with
  | some op => [("DELETE", op)]
  | none =>
    match props.get with
    | some op => [("GET", op)]
    | none =>
      match props.head with
      | some op => [("HEAD", op)]
      | none =>
        match props.options with
        | some op => [("OPTIONS", op)]
        | none =>
          match props.patch with
          | some op => [("PATCH", op)]
          | none =>
            match props.post with
            | some op => [("POST", op)]
            | none =>
              match props.put with
              | some op => [("PUT", op)]
              | none => []

/-- All operations the path item declares, listed in the chain's fixed
precedence order DELETE, GET, HEAD, OPTIONS, PATCH, POST, PUT. -/
def declaredOps {Op : Type} (props : PathItem Op) : List (String × Op) :=
  (props.delete.map (fun op => ("DELETE", op))).toList ++
  (props.get.map (fun op => ("GET", op))).toList ++
  (props.head.map (fun op => ("HEAD", op))).toList ++
  (props.options.map (fun op => ("OPTIONS", op))).toList ++
  (props.patch.map (fun op => ("PATCH", op))).toList ++
  (props.post.map (fun op => ("POST", op))).toList ++
  (props.put.map (fun op => ("PUT", op))).toList

/-- One registered route: method + full path bound to one operation. -/
structure RouteEntry (Op : Type) where
  method : String
  path : String
  op : Op

/-- `Proxy.registerPaths`: for every path item, register `base + path` under
each method `getOperations` yields. -/
def registerPaths {Op : Type} (base : String) (paths : List (String × PathItem Op)) :
    List (RouteEntry Op) :=
  paths.flatMap (fun pi =>
    (getOperations pi.2).map (fun mo => RouteEntry.mk mo.1 (base ++ pi.1) mo.2))

/-- Route lookup by exact method and path, as the muxer matches the
registered routes. -/
def matchRoute {Op : Type} (entries : List (RouteEntry Op)) (method path : String) :
    Option Op :=
  (entries.find? (fun e => e.method == method && e.path == path)).map RouteEntry.op

/-! ## Recorder run lemmas -/

theorem runActions_sinkEvents (acts : List RespAction) (w : WriterRecorder) :
    (runActions acts w).sinkEvents = w.sinkEvents ++ rawSink acts := by
  induction acts generalizing w with
  | nil => simp [runActions, rawSink]
  | cons a rest ih =>
    cases a <;>
      simp [runActions, runAction, rawSink, WriterRecorder.WriteHeader,
        WriterRecorder.Write, bytesBufferWrite, ih]

theorem runActions_headers (acts : List RespAction) (w : WriterRecorder) :
    (runActions acts w).headers = applyHeaderActs acts w.headers := by
  induction acts generalizing w with
  | nil => simp [runActions, applyHeaderActs]
  | cons a rest ih =>
    cases a <;>
      simp [runActions, runAction, applyHeaderActs, WriterRecorder.WriteHeader,
        WriterRecorder.Write, bytesBufferWrite, ih]

theorem runActions_status (acts : List RespAction) (w : WriterRecorder) :
    (runActions acts w).status = (lastStatus acts).getD w.status := by
  induction acts generalizing w with
  | nil => simp [runActions, lastStatus]
  | cons a rest ih =>
    cases a <;>
      simp [runActions, runAction, lastStatus, WriterRecorder.WriteHeader,
        WriterRecorder.Write, bytesBufferWrite, ih]

theorem runActions_body (acts : List RespAction) (w : WriterRecorder) :
    (runActions acts w).body = w.body ++ writtenBytes acts := by
  induction acts generalizing w with
  | nil => simp [runActions, writtenBytes]
  | cons a rest ih =>
    cases a <;>
      simp [runActions, runAction, writtenBytes, WriterRecorder.WriteHeader,
        WriterRecorder.Write, bytesBufferWrite, ih]

theorem initialRecorder_sinkEvents : initialRecorder.sinkEvents = [] := rfl

theorem initialRecorder_headers : initialRecorder.headers = [] := rfl

theorem initialRecorder_status : initialRecorder.status = 0 := rfl

theorem initialRecorder_body : initialRecorder.body = [] := rfl

/-- In the matched branches of `Handler` the caller-visible output is
always the recorder's forwarded trace, i.e. exactly the raw backend
response, whatever the validation verdict. -/
theorem Handler_matched_fst {σ : Type} (sv : σ → JsonVal → List String)
    (ip dp : String → Option String) (op : Operation σ) (backend : List RespAction) :
    (Handler sv ip dp (some op) backend).1 = (rawSink backend, rawHeaders backend) := by
  cases hls : lookupStatus op.responses (runActions backend initialRecorder).status with
  | none =>
    simp [Handler, hls, runActions_sinkEvents, runActions_headers,
      initialRecorder_sinkEvents, initialRecorder_headers, rawHeaders]
  | some specResp =>
    simp only [Handler, hls]
    cases Validate sv ip dp (runActions backend initialRecorder).status
        (runActions backend initialRecorder).headers
        (runActions backend initialRecorder).body specResp <;>
      simp [runActions_sinkEvents, runActions_headers,
        initialRecorder_sinkEvents, initialRecorder_headers, rawHeaders]

/-! ## Claims -/

/-- C1: for every matched request the status line, headers and body bytes
delivered to the caller are exactly the raw backend response — the recorder
forwards every buffered `Write` and every `WriteHeader` — and they do not
depend on the schema validator or header format parsers, i.e. on the
validation outcome: validation runs after the backend finished, on the
buffered copy. -/
theorem c1_response_passthrough {σ : Type}
    (sv sv2 : σ → JsonVal → List String) (ip ip2 dp dp2 : String → Option String)
    (op : Operation σ) (backend : List RespAction) :
    (Handler sv ip dp (some op) backend).1 = (rawSink backend, rawHeaders backend)
    ∧ (Handler sv ip dp (some op) backend).1 = (Handler sv2 ip2 dp2 (some op) backend).1 := by
  refine ⟨Handler_matched_fst sv ip dp op backend, ?_⟩
  rw [Handler_matched_fst sv ip dp op backend, Handler_matched_fst sv2 ip2 dp2 op backend]

/-- C2: `getOperations` yields exactly the first method the path item
declares in the fixed order DELETE, GET, HEAD, OPTIONS, PATCH, POST, PUT,
so registration drops every other declared method; in particular a path
item declaring GET and POST registers only GET and a POST to that path is
an unmatched route. -/
theorem c2_route_precedence :
    (∀ (Op : Type) (props : PathItem Op), getOperations props = (declaredOps props).take 1)
    ∧ (∀ (Op : Type) (g p : Op) (base path : String),
        registerPaths base [(path, PathItem.mk none (some g) none none none (some p) none)] =
          [RouteEntry.mk "GET" (base ++ path) g]
        ∧ matchRoute
            (registerPaths base [(path, PathItem.mk none (some g) none none none (some p) none)])
            "POST" (base ++ path) = none) := by
  constructor
  · intro Op props
    obtain ⟨d, g, h, o, pa, po, pu⟩ := props
    cases d <;> cases g <;> cases h <;> cases o <;> cases pa <;> cases po <;> cases pu <;> rfl
  · intro Op g p base path
    exact ⟨rfl, rfl⟩

/-- C3: when the body decodes, `Validate` returns `nil` exactly when no
header or schema violation was collected and otherwise one composite error
over the full collected list; header checking does not short-circuit, so
two declared header contracts with one missing and one malformed header
yield a composite of exactly the two violations. -/
theorem c3_violation_aggregation {σ : Type} (sv : σ → JsonVal → List String)
    (ip dp : String → Option String) (status : Nat) (hdr : List (String × String))
    (body : List Char) (resp : SpecResponse σ) (data : JsonVal)
    (h : jsonUnmarshal body = Except.ok data) :
    (Validate sv ip dp status hdr body resp = none ↔
      headerErrs ip dp hdr resp.headers ++ schemaErrs sv resp.schema data = [])
    ∧ (∀ errs, errs = headerErrs ip dp hdr resp.headers ++ schemaErrs sv resp.schema data →
        errs ≠ [] →
        Validate sv ip dp status hdr body resp = some (ValidateErr.composite errs))
    ∧ (∀ (k1 k2 : String) (f1 f2 : HeaderSpec) (hdr2 : List (String × String)) (e2 : String),
        headerGet hdr2 k1 = "" →
        validateHeaderValue ip dp k2 (headerGet hdr2 k2) f2 = some e2 →
        Validate sv ip dp status hdr2 body (SpecResponse.mk [(k1, f1), (k2, f2)] none) =
          some (ValidateErr.composite [k1 ++ " in headers is missing", e2])) := by
  have hmain : ∀ (hdrx : List (String × String)) (respx : SpecResponse σ),
      Validate sv ip dp status hdrx body respx =
        (if headerErrs ip dp hdrx respx.headers ++ schemaErrs sv respx.schema data = []
         then none
         else some (ValidateErr.composite
           (headerErrs ip dp hdrx respx.headers ++ schemaErrs sv respx.schema data))) := by
    intro hdrx respx
    simp [Validate, h]
  refine ⟨?_, ?_, ?_⟩
  · rw [hmain hdr resp]
    by_cases he : headerErrs ip dp hdr resp.headers ++ schemaErrs sv resp.schema data = []
    · simp [he]
    · simp [he]
  · intro errs herr hne
    rw [hmain hdr resp, ← herr, if_neg hne]
  · intro k1 k2 f1 f2 hdr2 e2 hk1 hk2
    have h1 : validateHeaderValue ip dp k1 (headerGet hdr2 k1) f1 =
        some (k1 ++ " in headers is missing") := by
      rw [hk1]
      simp [validateHeaderValue]
    rw [hmain hdr2 (SpecResponse.mk [(k1, f1), (k2, f2)] none)]
    simp [headerErrs, schemaErrs, h1, hk2]

/-- C4: when the body fails to decode, `Validate` returns exactly that
single decode error: the result does not depend on the header parsers, the
actual headers, or the schema validator — none of them are consulted. -/
theorem c4_parse_failure_aborts {σ : Type} (sv : σ → JsonVal → List String)
    (ip dp : String → Option String) (status : Nat) (hdr : List (String × String))
    (body : List Char) (resp : SpecResponse σ) (e : String)
    (h : jsonUnmarshal body = Except.error e) :
    Validate sv ip dp status hdr body resp = some (ValidateErr.parseFailure e) := by
  simp [Validate, h]

/-- Witness for C4: the empty body fails to decode, and `Validate` reports
only the decode error even though the declared int32 header contract would
also have been violated. -/
theorem c4_parse_failure_aborts_witness :
    Validate (fun (_ : Unit) (_ : JsonVal) => ([] : List String))
      (fun _ => some "bad int32") (fun _ => none)
      200 [("X-Rate-Limit", "zzz")] []
      (SpecResponse.mk [("X-Rate-Limit", HeaderSpec.mk "int32")] none) =
      some (ValidateErr.parseFailure "unexpected end of JSON input") :=
  c4_parse_failure_aborts _ _ _ _ _ _ _ _ rfl

/-- Witness for C3: two header contracts, `X-Total` absent and `X-Count`
rejected by the int32 parser, on a body that decodes (`null`): the
composite error holds exactly the two violations. -/
theorem c3_violation_aggregation_witness :
    Validate (fun (_ : Unit) (_ : JsonVal) => ([] : List String))
      (fun _ => some "bad int32") (fun _ => none)
      200 [("X-Count", "zzz")] ['n', 'u', 'l', 'l']
      (SpecResponse.mk [("X-Total", HeaderSpec.mk "int32"), ("X-Count", HeaderSpec.mk "int32")]
        none) =
      some (ValidateErr.composite ["X-Total in headers is missing", "bad int32"]) := by
  have h := (c3_violation_aggregation (fun (_ : Unit) (_ : JsonVal) => ([] : List String))
      (fun _ => some "bad int32") (fun _ => none) 200 [] ['n', 'u', 'l', 'l']
      (SpecResponse.mk [] none) JsonVal.null rfl).2.2
    "X-Total" "X-Count" (HeaderSpec.mk "int32") (HeaderSpec.mk "int32")
    [("X-Count", "zzz")] "bad int32" rfl rfl
  exact h.trans (by rfl)

/-- C5: a declared header contract yields the missing-header violation when
the actual value is empty; with a non-empty value it yields exactly the
int32 parser result under format `"int32"`, exactly the date-time parser
result under format `"date-time"`, and no violation under any other
format. -/
theorem c5_header_format_checks (ip dp : String → Option String)
    (key value : String) (hs : HeaderSpec) :
    (value = "" →
      validateHeaderValue ip dp key value hs = some (key ++ " in headers is missing"))
    ∧ (value ≠ "" → hs.format = "int32" →
      validateHeaderValue ip dp key value hs = ip value)
    ∧ (value ≠ "" → hs.format = "date-time" →
      validateHeaderValue ip dp key value hs = dp value)
    ∧ (value ≠ "" → hs.format ≠ "int32" → hs.format ≠ "date-time" →
      validateHeaderValue ip dp key value hs = none) := by
  refine ⟨?_, ?_, ?_, ?_⟩
  · intro hv
    simp [validateHeaderValue, hv]
  · intro hv hf
    simp [validateHeaderValue, hv, hf]
  · intro hv hf
    simp [validateHeaderValue, hv, hf]
  · intro hv hf1 hf2
    simp [validateHeaderValue, hv, hf1, hf2]

/-- Witness for C5: an empty value is a missing-header violation, a
non-empty value rejected by the int32 parser surfaces the parser's error,
and an unimplemented format (`"uuid"`) is accepted without complaint. -/
theorem c5_header_format_checks_witness :
    validateHeaderValue (fun _ => some "not an int32") (fun _ => none)
      "X-Count" "" (HeaderSpec.mk "int32") = some "X-Count in headers is missing"
    ∧ validateHeaderValue (fun _ => some "not an int32") (fun _ => none)
      "X-Count" "abc" (HeaderSpec.mk "int32") = some "not an int32"
    ∧ validateHeaderValue (fun _ => some "not an int32") (fun _ => none)
      "X-Count" "abc" (HeaderSpec.mk "uuid") = none := by
  refine ⟨?_, ?_, ?_⟩
  · exact ((c5_header_format_checks (fun _ => some "not an int32") (fun _ => none)
      "X-Count" "" (HeaderSpec.mk "int32")).1 rfl).trans (by rfl)
  · exact (c5_header_format_checks (fun _ => some "not an int32") (fun _ => none)
      "X-Count" "abc" (HeaderSpec.mk "int32")).2.1 (by decide) rfl
  · exact (c5_header_format_checks (fun _ => some "not an int32") (fun _ => none)
      "X-Count" "abc" (HeaderSpec.mk "uuid")).2.2.2 (by decide) (by decide) (by decide)

/-- C6: when the recorded status has no entry in the matched operation's
response contracts, `Handler` reports exactly one Error, the
status-not-defined one, and the result does not depend on the schema
validator or header parsers — `Validate` is never invoked. -/
theorem c6_undeclared_status {σ : Type} (sv : σ → JsonVal → List String)
    (ip dp : String → Option String) (op : Operation σ) (backend : List RespAction)
    (h : lookupStatus op.responses (runActions backend initialRecorder).status = none) :
    Handler sv ip dp (some op) backend =
      ((rawSink backend, rawHeaders backend),
       Report.reportError (ReportedErr.plain
         ("Server Status " ++ toString (runActions backend initialRecorder).status ++
           " not defined by the spec"))) := by
  simp [Handler, h, runActions_sinkEvents, runActions_headers,
    initialRecorder_sinkEvents, initialRecorder_headers, rawHeaders]

/-- Witness for C6: an operation declaring no responses, with a backend
that never calls WriteHeader (recorded status 0): one status-not-defined
Error, nothing validated. -/
theorem c6_undeclared_status_witness :
    Handler (fun (_ : Unit) (_ : JsonVal) => ([] : List String)) (fun _ => none) (fun _ => none)
      (some (Operation.mk ([] : List (Nat × SpecResponse Unit)))) [] =
      (([], []),
       Report.reportError (ReportedErr.plain "Server Status 0 not defined by the spec")) := by
  have h := c6_undeclared_status (fun (_ : Unit) (_ : JsonVal) => ([] : List String))
    (fun _ => none) (fun _ => none) (Operation.mk []) [] rfl
  exact h.trans (by rfl)

/-- C7 counterexample: a request that dispatches into `Handler` but whose
in-handler route match finds no operation is NOT forwarded — the handler
returns after the Warning, delivering nothing to the caller, while the raw
backend response would have been one body write. -/
theorem c7_counterexample :
    (Handler (fun (_ : Unit) (_ : JsonVal) => ([] : List String)) (fun _ => none)
        (fun _ => none) (none : Option (Operation Unit)) [RespAction.write ['a']]).1.1 = []
    ∧ rawSink [RespAction.write ['a']] = [SinkEvent.write ['a']]
    ∧ (Handler (fun (_ : Unit) (_ : JsonVal) => ([] : List String)) (fun _ => none)
        (fun _ => none) (none : Option (Operation Unit)) [RespAction.write ['a']]).2 =
      Report.warning "Route not defined on the Spec"
    ∧ ([] : List SinkEvent) ≠ [SinkEvent.write ['a']] := by
  refine ⟨rfl, rfl, rfl, ?_⟩
  intro hcon
  exact List.noConfusion hcon

/-- C7 amended: every unmatched request gets a Warning; requests handled by
the muxer's not-found fallback are still forwarded and the caller receives
the raw backend response byte-identically, but a request that dispatches
into the handler and only there fails the route/operation lookup is not
forwarded — the handler returns without writing anything. -/
theorem c7_unmatched_routes {σ : Type} (sv : σ → JsonVal → List String)
    (ip dp : String → Option String) (backend : List RespAction) :
    notFound backend =
      ((rawSink backend, rawHeaders backend), Report.warning "Route not defined on the Spec")
    ∧ Handler sv ip dp (none : Option (Operation σ)) backend =
      (([], []), Report.warning "Route not defined on the Spec") :=
  ⟨rfl, rfl⟩

/-- C8: `WriterRecorder.Write` appends to the buffer first; if the buffer
append fails it returns the buffer's count and error with the wrapped sink
untouched (no forwarded event), and only on buffer success are the bytes
forwarded to the sink. -/
theorem c8_write_buffer_first
    (bufWrite : List Char → List Char → List Char × Nat × Option String)
    (w : WriterRecorder) (bs newBuf : List Char) (n : Nat) (e : String) :
    (bufWrite w.body bs = (newBuf, n, some e) →
      WriterRecorder.Write bufWrite w bs = ({ w with body := newBuf }, n, some e))
    ∧ (bufWrite w.body bs = (newBuf, n, none) →
      WriterRecorder.Write bufWrite w bs =
        ({ w with body := newBuf, sinkEvents := w.sinkEvents ++ [SinkEvent.write bs] },
         bs.length, none)) := by
  constructor <;> intro h <;> simp [WriterRecorder.Write, h]

/-- Witness for C8: a buffer append that fails leaves the recorder's sink
trace unchanged and surfaces the buffer's count and error. -/
theorem c8_write_buffer_first_witness :
    WriterRecorder.Write (fun buf _ => (buf, 0, some "buffer failed")) initialRecorder ['a'] =
      (initialRecorder, 0, some "buffer failed") := by
  have h := (c8_write_buffer_first (fun buf _ => (buf, 0, some "buffer failed"))
      initialRecorder ['a'] [] 0 "buffer failed").1 rfl
  exact h.trans (by rfl)

/-- C9: a zero-byte body never validates: decoding the empty input fails,
so `Validate` returns the decode error for every response contract —
including one with no header contracts and no schema — and Success is
impossible. -/
theorem c9_empty_body_never_success {σ : Type} (sv : σ → JsonVal → List String)
    (ip dp : String → Option String) (status : Nat) (hdr : List (String × String))
    (resp : SpecResponse σ) :
    Validate sv ip dp status hdr [] resp =
      some (ValidateErr.parseFailure "unexpected end of JSON input")
    ∧ Validate sv ip dp status hdr [] (SpecResponse.mk [] none) ≠ none := by
  refine ⟨rfl, ?_⟩
  have h2 : Validate sv ip dp status hdr [] (SpecResponse.mk [] (none : Option σ)) =
      some (ValidateErr.parseFailure "unexpected end of JSON input") := rfl
  simp [h2]

/-- C10: the recorder's status is the argument of the last `WriteHeader`
of the backend run, and 0 — the Go zero value, not HTTP's implicit 200 —
when the backend only wrote a body and never called `WriteHeader`. -/
theorem c10_recorded_status (acts : List RespAction) :
    (runActions acts initialRecorder).status = (lastStatus acts).getD 0
    ∧ (runActions [RespAction.write ['a']] initialRecorder).status = 0 := by
  constructor
  · rw [runActions_status, initialRecorder_status]
  · rfl

end SwaggerProxy
